import Mathlib

/-!
Shallow embedding of the monitoring engine of `internal/monitor` (package
`monitor`): the per-target failure/recovery state machine, the per-sweep batch
runner `Service.runBatch`, the bounded per-URL history ring, the probe
classifier `Service.checkURL`, and the snapshot copy of `Service.Results`.

Conventions of the embedding:
* Go `int` and `time.Duration`/instants are modelled as unbounded `Int`
  (times and durations in nanoseconds, as in Go's `time` package); the
  several `time.Now()` calls inside one loop iteration are abstracted to a
  single per-sweep instant `now`.
* Go maps (`states map[int]*model.TaskState`, `history map[string][]string`)
  are association lists with lookup defaulting to the Go zero value, which
  models the lazy creation of `model.TaskState`.
* Side effects on the repository (`CreateEvent`, `ResolveDownEvents`,
  `CreatePerformance`) are modelled as an emitted event list.
-/

/-- `model.TaskState`: per-task dynamic state (failure count, last alert
time, down flag).  The Go zero value is `⟨0, 0, false⟩`. -/
structure TaskState where
  consecutiveFails : Int
  lastAlertTime : Int
  isDown : Bool
deriving DecidableEq

/-- One result arriving on the channel inside `Service.runBatch`: the
fields of `model.MonitorResult` that the aggregation loop reads. -/
structure SweepResult where
  rid : Int
  name : String
  url : String
  statusCode : Int
  color : String
  isSuccess : Bool
deriving DecidableEq

/-- A published `model.MonitorResult` as stored in `Service.results`
(value-level view; `HistoryDots` is the copied snapshot). -/
structure MonitorResultV where
  rid : Int
  name : String
  url : String
  statusCode : Int
  color : String
  isSuccess : Bool
  historyDots : List String
deriving DecidableEq

/-- Repository side effects performed by `Service.runBatch`:
`CreatePerformance`, `CreateEvent` (alert), `CreateEvent` (recovery),
`ResolveDownEvents`. -/
inductive Event where
  | perf (rid : Int)
  | alert (rid : Int)
  | recover (rid : Int)
  | resolve (nm : String)
deriving DecidableEq

/-- The shared mutable state of `monitor.Service` touched by a sweep:
`states`, `history`, `results`. -/
structure BatchState where
  states : List (Int × TaskState)
  history : List (String × List String)
  results : List MonitorResultV
deriving DecidableEq

/-- Go map read `s.states[id]` together with the lazy creation
`st = &model.TaskState{}` on a miss: lookup defaulting to the zero value. -/
def lookupState : List (Int × TaskState) → Int → TaskState
  | [], _ => ⟨0, 0, false⟩
  | (k, v) :: rest, i => if k = i then v else lookupState rest i

/-- Go map write `s.states[id] = st` (update in place, insert on miss). -/
def setState : List (Int × TaskState) → Int → TaskState → List (Int × TaskState)
  | [], i, st => [(i, st)]
  | (k, v) :: rest, i, st =>
      if k = i then (k, st) :: rest else (k, v) :: setState rest i st

/-- Go map read `s.history[url]` (a missing key reads as the empty slice). -/
def lookupHist : List (String × List String) → String → List String
  | [], _ => []
  | (k, v) :: rest, u => if k = u then v else lookupHist rest u

/-- Go map write `s.history[url] = his`. -/
def setHist : List (String × List String) → String → List String →
    List (String × List String)
  | [], u, his => [(u, his)]
  | (k, v) :: rest, u, his =>
      if k = u then (k, his) :: rest else (k, v) :: setHist rest u his

/-- `Service.runBatch` lines 164-168: append the new colour tag and keep
only the last 10 entries (`his = his[len(his)-10:]`). -/
def pushHistory (h : List String) (c : String) : List String :=
  let his := h ++ [c]
  if his.length > 10 then his.drop (his.length - 10) else his

/-- `Service.runBatch` lines 183-205, the alert/recovery decision for one
task: on failure increment `ConsecutiveFails`, set `IsDown` and alert at
equality with the threshold, alert again past the threshold when
`now - LastAlertTime > cooldown`, and stamp `LastAlertTime` exactly when an
alert fires; on success reset the counter and the down flag and report
whether a recovery is due.  Returns (new state, shouldAlert, needRecover). -/
def stepState (threshold cooldown now : Int) (st : TaskState)
    (isSuccess : Bool) : TaskState × Bool × Bool :=
  if !isSuccess then
    let fails := st.consecutiveFails + 1
    let down := if fails = threshold then true else st.isDown
    let shouldAlert :=
      if fails = threshold then true
      else if fails > threshold ∧ now - st.lastAlertTime > cooldown then true
      else false
    let last := if shouldAlert then now else st.lastAlertTime
    (⟨fails, last, down⟩, shouldAlert, false)
  else
    (⟨0, st.lastAlertTime, false⟩, false, st.isDown)

/-- The body of the aggregation loop of `Service.runBatch` for one received
result: performance log on success, history-ring update, state-machine step,
alert and recovery dispatch, and appending the published result.  Returns the
updated service state and the repository events of this iteration. -/
def processOne (threshold cooldown now : Int) (bs : BatchState)
    (res : SweepResult) : BatchState × List Event :=
  let perfE : List Event := if res.isSuccess then [Event.perf res.rid] else []
  let his := pushHistory (lookupHist bs.history res.url) res.color
  let st := lookupState bs.states res.rid
  let out := stepState threshold cooldown now st res.isSuccess
  let alertE : List Event := if out.2.1 then [Event.alert res.rid] else []
  let recE : List Event :=
    if out.2.2 then [Event.recover res.rid, Event.resolve res.name] else []
  let newRes : MonitorResultV :=
    ⟨res.rid, res.name, res.url, res.statusCode, res.color, res.isSuccess, his⟩
  (⟨setState bs.states res.rid out.1, setHist bs.history res.url his,
    bs.results ++ [newRes]⟩,
   perfE ++ alertE ++ recE)

/-- The aggregation loop of `Service.runBatch` over all received results. -/
def processList (threshold cooldown now : Int) (bs : BatchState) :
    List SweepResult → BatchState × List Event
  | [] => (bs, [])
  | r :: rest =>
      let out := processOne threshold cooldown now bs r
      let outs := processList threshold cooldown now out.1 rest
      (outs.1, out.2 ++ outs.2)

/-- `Service.runBatch`: early return on an empty task list, clamp of the
threshold (`threshold <= 0` becomes 1), conversion of the cooldown from
minutes to a duration clamped at 0, then aggregation of all results; the
`results` slice is rebuilt from scratch (`newResults`). -/
def runBatch (threshold cooldownMin now : Int) (rs : List SweepResult)
    (bs : BatchState) : BatchState × List Event :=
  if rs.isEmpty then (bs, [])
  else
    let t := if threshold ≤ 0 then 1 else threshold
    let cd0 := cooldownMin * 60000000000
    let cd := if cd0 < 0 then 0 else cd0
    processList t cd now ⟨bs.states, bs.history, []⟩ rs

/-- Number of alert events (`CreateEvent` with the down-warning type) in an
event list. -/
def alertCount (evs : List Event) : Nat :=
  (evs.filter fun e => match e with | Event.alert _ => true | _ => false).length

/-- Number of recovery events in an event list. -/
def recoverCount (evs : List Event) : Nat :=
  (evs.filter fun e => match e with | Event.recover _ => true | _ => false).length

/-- Number of `ResolveDownEvents` calls in an event list. -/
def resolveCount (evs : List Event) : Nat :=
  (evs.filter fun e => match e with | Event.resolve _ => true | _ => false).length

/-- Iterated sweeps: run `Service.runBatch` once per (instant, results)
pair, threading the service state, and record each sweep's alert count. -/
def sweepAlertCounts (threshold cooldownMin : Int) (bs : BatchState) :
    List (Int × List SweepResult) → List Nat
  | [] => []
  | (now, rs) :: rest =>
      alertCount (runBatch threshold cooldownMin now rs bs).2 ::
        sweepAlertCounts threshold cooldownMin
          (runBatch threshold cooldownMin now rs bs).1 rest

/-- Writing a state back and reading it at the same id gives it back. -/
theorem lookupState_setState_self (ss : List (Int × TaskState)) (i : Int)
    (st : TaskState) : lookupState (setState ss i st) i = st := by
  induction ss with
  | nil => simp [setState, lookupState]
  | cons p rest ih =>
      obtain ⟨k, v⟩ := p
      by_cases h : k = i <;> simp [setState, lookupState, h, ih]

/-- C1: in a sweep with effective threshold `T`, a failing probe that takes
the task's `consecutiveFails` from `T - 1` to exactly `T` makes the
aggregation step emit exactly one alert, set `isDown`, and stamp
`lastAlertTime` with the current instant; a failing probe that leaves
`consecutiveFails` strictly below `T` emits no alert. -/
theorem alert_exactly_at_threshold_crossing (T cd now : Int)
    (bs : BatchState) (res : SweepResult) (hfail : res.isSuccess = false) :
    ((lookupState bs.states res.rid).consecutiveFails + 1 = T →
      alertCount (processOne T cd now bs res).2 = 1
      ∧ (lookupState (processOne T cd now bs res).1.states res.rid).isDown = true
      ∧ (lookupState (processOne T cd now bs res).1.states res.rid).lastAlertTime
          = now)
    ∧ ((lookupState bs.states res.rid).consecutiveFails + 1 < T →
      alertCount (processOne T cd now bs res).2 = 0) := by
  constructor
  · intro heq
    simp only [processOne, stepState, hfail, Bool.not_false, if_pos rfl,
      lookupState_setState_self]
    simp [heq, alertCount]
  · intro hlt
    have hne : ¬ (lookupState bs.states res.rid).consecutiveFails + 1 = T := by
      omega
    have hng : ¬ (lookupState bs.states res.rid).consecutiveFails + 1 > T := by
      omega
    simp only [processOne, stepState, hfail, Bool.not_false]
    simp [hne, hng, alertCount]

/-- Witness for C1 at threshold 2 on a task that already failed once. -/
theorem alert_exactly_at_threshold_crossing_witness :
    alertCount (processOne 2 0 5 ⟨[(1, ⟨1, 0, false⟩)], [], []⟩
      ⟨1, "svc", "u", 500, "red", false⟩).2 = 1
    ∧ (lookupState (processOne 2 0 5 ⟨[(1, ⟨1, 0, false⟩)], [], []⟩
        ⟨1, "svc", "u", 500, "red", false⟩).1.states 1).isDown = true
    ∧ (lookupState (processOne 2 0 5 ⟨[(1, ⟨1, 0, false⟩)], [], []⟩
        ⟨1, "svc", "u", 500, "red", false⟩).1.states 1).lastAlertTime = 5 :=
  (alert_exactly_at_threshold_crossing 2 0 5 ⟨[(1, ⟨1, 0, false⟩)], [], []⟩
    ⟨1, "svc", "u", 500, "red", false⟩ rfl).1 (by decide)

/-- C2: for a failing probe that puts `consecutiveFails` strictly above the
effective threshold, a repeat alert is emitted iff the time since
`lastAlertTime` strictly exceeds the effective cooldown; `lastAlertTime` is
stamped on an alert and left untouched otherwise; and concretely with
threshold 3 and cooldown 0, five failing sweeps alert exactly on sweeps
3, 4 and 5. -/
theorem repeat_alert_cooldown_gated (T cd now : Int) (bs : BatchState)
    (res : SweepResult) (hfail : res.isSuccess = false)
    (hgt : (lookupState bs.states res.rid).consecutiveFails + 1 > T) :
    (alertCount (processOne T cd now bs res).2 = 1
      ↔ now - (lookupState bs.states res.rid).lastAlertTime > cd)
    ∧ (now - (lookupState bs.states res.rid).lastAlertTime > cd →
        (lookupState (processOne T cd now bs res).1.states res.rid).lastAlertTime
          = now)
    ∧ (¬ now - (lookupState bs.states res.rid).lastAlertTime > cd →
        alertCount (processOne T cd now bs res).2 = 0
        ∧ (lookupState (processOne T cd now bs res).1.states
            res.rid).lastAlertTime
          = (lookupState bs.states res.rid).lastAlertTime)
    ∧ sweepAlertCounts 3 0 ⟨[], [], []⟩
        [(1, [⟨1, "svc", "u", 500, "red", false⟩]),
         (2, [⟨1, "svc", "u", 500, "red", false⟩]),
         (3, [⟨1, "svc", "u", 500, "red", false⟩]),
         (4, [⟨1, "svc", "u", 500, "red", false⟩]),
         (5, [⟨1, "svc", "u", 500, "red", false⟩])] = [0, 0, 1, 1, 1] := by
  have hne : ¬ (lookupState bs.states res.rid).consecutiveFails + 1 = T := by
    omega
  refine ⟨?_, ?_, ?_, by decide⟩
  · by_cases hcd : now - (lookupState bs.states res.rid).lastAlertTime > cd
    · simp only [processOne, stepState, hfail, Bool.not_false]
      simp [hne, hgt, hcd, alertCount]
    · simp only [processOne, stepState, hfail, Bool.not_false]
      simp [hne, hgt, hcd, alertCount]
  · intro hcd
    simp only [processOne, stepState, hfail, Bool.not_false,
      lookupState_setState_self]
    simp [hne, hgt, hcd]
  · intro hcd
    simp only [processOne, stepState, hfail, Bool.not_false,
      lookupState_setState_self]
    simp [hne, hgt, hcd, alertCount]

/-- Witness for C2: threshold 1, over-threshold failure; cooldown 7 with the
last alert 10 time units ago, so the repeat alert fires and `lastAlertTime`
advances. -/
theorem repeat_alert_cooldown_gated_witness :
    (alertCount (processOne 1 7 30 ⟨[(1, ⟨1, 20, true⟩)], [], []⟩
        ⟨1, "svc", "u", 500, "red", false⟩).2 = 1
      ↔ (30 : Int) - (lookupState [(1, ⟨1, 20, true⟩)] 1).lastAlertTime > 7) ∧
    (lookupState (processOne 1 7 30 ⟨[(1, ⟨1, 20, true⟩)], [], []⟩
        ⟨1, "svc", "u", 500, "red", false⟩).1.states 1).lastAlertTime = 30 :=
  ⟨(repeat_alert_cooldown_gated 1 7 30 ⟨[(1, ⟨1, 20, true⟩)], [], []⟩
      ⟨1, "svc", "u", 500, "red", false⟩ rfl (by decide)).1,
   (repeat_alert_cooldown_gated 1 7 30 ⟨[(1, ⟨1, 20, true⟩)], [], []⟩
      ⟨1, "svc", "u", 500, "red", false⟩ rfl (by decide)).2.1 (by decide)⟩

/-- C3: a successful probe unconditionally resets `consecutiveFails` to 0
and clears `isDown`; if the task was down, the aggregation step persists
exactly one recovery event and issues exactly one `ResolveDownEvents` call,
and if it was not down, it persists neither. -/
theorem success_resets_and_recovers (T cd now : Int) (bs : BatchState)
    (res : SweepResult) (hsucc : res.isSuccess = true) :
    (lookupState (processOne T cd now bs res).1.states
        res.rid).consecutiveFails = 0
    ∧ (lookupState (processOne T cd now bs res).1.states res.rid).isDown = false
    ∧ ((lookupState bs.states res.rid).isDown = true →
        recoverCount (processOne T cd now bs res).2 = 1
        ∧ resolveCount (processOne T cd now bs res).2 = 1)
    ∧ ((lookupState bs.states res.rid).isDown = false →
        recoverCount (processOne T cd now bs res).2 = 0
        ∧ resolveCount (processOne T cd now bs res).2 = 0) := by
  refine ⟨?_, ?_, ?_, ?_⟩
  · simp [processOne, stepState, hsucc, lookupState_setState_self]
  · simp [processOne, stepState, hsucc, lookupState_setState_self]
  · intro hdown
    simp [processOne, stepState, hsucc, hdown, recoverCount, resolveCount]
  · intro hup
    simp [processOne, stepState, hsucc, hup, recoverCount, resolveCount]

/-- Witness for C3 on a down task with 4 consecutive failures. -/
theorem success_resets_and_recovers_witness :
    (lookupState (processOne 3 0 9 ⟨[(1, ⟨4, 2, true⟩)], [], []⟩
        ⟨1, "svc", "u", 200, "green", true⟩).1.states 1).consecutiveFails = 0
    ∧ (lookupState (processOne 3 0 9 ⟨[(1, ⟨4, 2, true⟩)], [], []⟩
        ⟨1, "svc", "u", 200, "green", true⟩).1.states 1).isDown = false
    ∧ (recoverCount (processOne 3 0 9 ⟨[(1, ⟨4, 2, true⟩)], [], []⟩
        ⟨1, "svc", "u", 200, "green", true⟩).2 = 1
      ∧ resolveCount (processOne 3 0 9 ⟨[(1, ⟨4, 2, true⟩)], [], []⟩
        ⟨1, "svc", "u", 200, "green", true⟩).2 = 1) :=
  ⟨(success_resets_and_recovers 3 0 9 ⟨[(1, ⟨4, 2, true⟩)], [], []⟩
      ⟨1, "svc", "u", 200, "green", true⟩ rfl).1,
   (success_resets_and_recovers 3 0 9 ⟨[(1, ⟨4, 2, true⟩)], [], []⟩
      ⟨1, "svc", "u", 200, "green", true⟩ rfl).2.1,
   (success_resets_and_recovers 3 0 9 ⟨[(1, ⟨4, 2, true⟩)], [], []⟩
      ⟨1, "svc", "u", 200, "green", true⟩ rfl).2.2.1 (by decide)⟩

/-- C10: an alert at the exact threshold crossing is unconditional — it
fires for every cooldown value and every `lastAlertTime`, with no cooldown
check (the gate applies only strictly above the threshold).  Concretely,
with threshold 2 and a 100-minute cooldown, the run
fail, fail, success, fail, fail alerts on sweeps 2 and 5 even though the
second crossing comes 3 nanoseconds after the first alert. -/
theorem threshold_alert_unconditional (T cd now : Int) (bs : BatchState)
    (res : SweepResult) (hfail : res.isSuccess = false)
    (heq : (lookupState bs.states res.rid).consecutiveFails + 1 = T) :
    alertCount (processOne T cd now bs res).2 = 1
    ∧ sweepAlertCounts 2 100 ⟨[], [], []⟩
        [(1, [⟨1, "svc", "u", 500, "red", false⟩]),
         (2, [⟨1, "svc", "u", 500, "red", false⟩]),
         (3, [⟨1, "svc", "u", 200, "green", true⟩]),
         (4, [⟨1, "svc", "u", 500, "red", false⟩]),
         (5, [⟨1, "svc", "u", 500, "red", false⟩])] = [0, 1, 0, 0, 1] := by
  refine ⟨?_, by decide⟩
  simp only [processOne, stepState, hfail, Bool.not_false]
  simp [heq, alertCount]

/-- Witness for C10: the crossing alert fires with an enormous cooldown and
`lastAlertTime` equal to the current instant (zero elapsed time). -/
theorem threshold_alert_unconditional_witness :
    alertCount (processOne 2 6000000000000 5 ⟨[(1, ⟨1, 5, false⟩)], [], []⟩
      ⟨1, "svc", "u", 500, "red", false⟩).2 = 1 :=
  (threshold_alert_unconditional 2 6000000000000 5
    ⟨[(1, ⟨1, 5, false⟩)], [], []⟩
    ⟨1, "svc", "u", 500, "red", false⟩ rfl (by decide)).1

/-- A single task evaluated over a sequence of sweeps: each element gives
the probe outcome and the sweep instant; the threshold and cooldown are
fixed across the run. -/
def runState (threshold cooldown : Int) (st : TaskState) :
    List (Bool × Int) → TaskState
  | [] => st
  | (succ, now) :: rest =>
      runState threshold cooldown (stepState threshold cooldown now st succ).1 rest

/-- Counterexample to C5: sweep 1 runs with threshold 1 (the failure
crosses it, so `isDown` becomes true), sweep 2 runs with threshold 3 (the
failure neither equals nor exceeds it, so `isDown` is left true); after
sweep 2 the task is down yet `consecutiveFails = 2 < 3`, the threshold used
in that sweep. -/
theorem isDown_iff_threshold_counterexample :
    (lookupState (runBatch 3 0 2 [⟨1, "svc", "u", 500, "red", false⟩]
        (runBatch 1 0 1 [⟨1, "svc", "u", 500, "red", false⟩]
          ⟨[], [], []⟩).1).1.states 1).isDown = true
    ∧ ¬ ((lookupState (runBatch 3 0 2 [⟨1, "svc", "u", 500, "red", false⟩]
        (runBatch 1 0 1 [⟨1, "svc", "u", 500, "red", false⟩]
          ⟨[], [], []⟩).1).1.states 1).consecutiveFails ≥ 3) := by
  decide

/-- The inductive invariant behind the amended C5: with a fixed threshold,
one state-machine step preserves "down exactly when the counter has reached
the threshold". -/
theorem stepState_isDown_invariant (T cd now : Int) (st : TaskState)
    (succ : Bool) (hT : 1 ≤ T)
    (hinv : st.isDown = true ↔ T ≤ st.consecutiveFails) :
    (stepState T cd now st succ).1.isDown = true
      ↔ T ≤ (stepState T cd now st succ).1.consecutiveFails := by
  cases succ with
  | true => simp [stepState]; omega
  | false =>
      by_cases he : st.consecutiveFails + 1 = T
      · simp [stepState, he]
      · simp [stepState, he]
        rw [hinv]
        omega

/-- C5 amended: the biconditional `isDown = true ↔ consecutiveFails ≥
threshold` holds at every point of a run in which the (effective, hence
positive) threshold is the same in all sweeps, starting from the lazily
created zero state; it can fail when the threshold changes between sweeps
(see the counterexample). -/
theorem isDown_iff_threshold_fixed (T cd : Int) (hT : 1 ≤ T)
    (evs : List (Bool × Int)) :
    (runState T cd ⟨0, 0, false⟩ evs).isDown = true
      ↔ T ≤ (runState T cd ⟨0, 0, false⟩ evs).consecutiveFails := by
  have main : ∀ (l : List (Bool × Int)) (st : TaskState),
      (st.isDown = true ↔ T ≤ st.consecutiveFails) →
      ((runState T cd st l).isDown = true
        ↔ T ≤ (runState T cd st l).consecutiveFails) := by
    intro l
    induction l with
    | nil => intro st h; exact h
    | cons p rest ih =>
        intro st h
        obtain ⟨succ, now⟩ := p
        exact ih _ (stepState_isDown_invariant T cd now st succ hT h)
  exact main evs ⟨0, 0, false⟩ (by simp; omega)

/-- Witness for the amended C5: threshold 2, two failing sweeps. -/
theorem isDown_iff_threshold_fixed_witness :
    ((runState 2 0 ⟨0, 0, false⟩ [(false, 1), (false, 2)]).isDown = true
      ↔ 2 ≤ (runState 2 0 ⟨0, 0, false⟩
          [(false, 1), (false, 2)]).consecutiveFails) :=
  isDown_iff_threshold_fixed 2 0 (by norm_num) [(false, 1), (false, 2)]

/-- A Go slice header's pointer into a backing array, for the aliasing
model of `Service.Results`: two slice headers with the same reference share
the backing array. -/
structure SliceRef where
  id : Nat
deriving DecidableEq

/-- The element of `Service.results` as far as aliasing is concerned: the
value fields are copied by Go's `copy`, but `HistoryDots` is a slice header
whose reference is copied, not its backing array. -/
structure ResultRec where
  rid : Int
  historyDots : SliceRef
deriving DecidableEq

/-- The backing store of all slice arrays (`[]string` contents addressed by
reference). -/
structure Mem where
  heap : List (List String)
deriving DecidableEq

/-- Reading the contents behind a slice header. -/
def readSlice (m : Mem) (r : SliceRef) : List String :=
  (m.heap.get? r.id).getD []

/-- An element assignment `slice[j] = v` through a slice header: it writes
the shared backing array. -/
def writeSlice (m : Mem) (r : SliceRef) (j : Nat) (v : String) : Mem :=
  ⟨m.heap.set r.id (((m.heap.get? r.id).getD []).set j v)⟩

/-- `append([]string(nil), his...)` (line 169 of the monitor): allocate a
fresh backing array holding the given contents and return its header. -/
def allocSlice (m : Mem) (xs : List String) : Mem × SliceRef :=
  (⟨m.heap ++ [xs]⟩, ⟨m.heap.length⟩)

/-- The `results` field of `monitor.Service`, viewed at the aliasing level. -/
structure ResultsState where
  results : List ResultRec
deriving DecidableEq

/-- `Service.Results` lines 101-103: `out := make(...); copy(out, s.results)`
— a fresh top-level slice whose elements are struct-value copies, so the
contained `HistoryDots` slice headers are shared. -/
def resultsCopy (s : ResultsState) : List ResultRec :=
  s.results.map fun r => ⟨r.rid, r.historyDots⟩

/-- Counterexample to C6: the engine holds one published result whose
history snapshot reads `["green"]`.  A caller takes `Results()` and assigns
through the returned value's history snapshot (`out[0].HistoryDots[0] =
"red"`); afterwards the engine-internal result's history reads `["red"]`,
so the caller's mutation changed internal state and what a subsequent
`Results()` exposes. -/
theorem results_copy_shares_history_counterexample :
    readSlice
        (writeSlice ⟨[["green"]]⟩
          ((resultsCopy ⟨[⟨1, ⟨0⟩⟩]⟩).headD ⟨0, ⟨7⟩⟩).historyDots 0 "red")
        (((⟨[⟨1, ⟨0⟩⟩]⟩ : ResultsState).results.headD ⟨0, ⟨7⟩⟩).historyDots)
      = ["red"]
    ∧ readSlice (⟨[["green"]]⟩ : Mem)
        (((⟨[⟨1, ⟨0⟩⟩]⟩ : ResultsState).results.headD ⟨0, ⟨7⟩⟩).historyDots)
      = ["green"] := by
  decide

/-- C6 amended: `Results()` returns a fresh top-level slice whose element
values equal the internal ones, and writes that do not go through one of
the internal results' shared `HistoryDots` headers leave every internal
history reading unchanged; the `HistoryDots` headers themselves are shared
with the internal collection, so element assignment through a returned
history snapshot is visible internally (see the counterexample). -/
theorem results_copy_top_level_independent (s : ResultsState) (m : Mem)
    (r : SliceRef) (j : Nat) (v : String)
    (hfresh : ∀ rec ∈ s.results, rec.historyDots ≠ r) :
    resultsCopy s = s.results
    ∧ ∀ rec ∈ s.results,
        readSlice (writeSlice m r j v) rec.historyDots
          = readSlice m rec.historyDots := by
  constructor
  · have : ∀ l : List ResultRec,
        (l.map fun q => (⟨q.rid, q.historyDots⟩ : ResultRec)) = l := by
      intro l
      induction l with
      | nil => rfl
      | cons a t ih => simp [ih]
    exact this s.results
  · intro rec hrec
    have hne : r.id ≠ rec.historyDots.id := by
      intro hid
      exact hfresh rec hrec (by
        cases hq : rec.historyDots
        cases hr : r
        simp_all)
    simp [readSlice, writeSlice, List.getElem?_set_ne hne]

/-- Witness for the amended C6: one internal result, a write through an
unshared header leaves the internal reading at `["green"]`. -/
theorem results_copy_top_level_independent_witness :
    resultsCopy ⟨[⟨1, ⟨0⟩⟩]⟩ = (⟨[⟨1, ⟨0⟩⟩]⟩ : ResultsState).results
    ∧ ∀ rec ∈ (⟨[⟨1, ⟨0⟩⟩]⟩ : ResultsState).results,
        readSlice (writeSlice ⟨[["green"]]⟩ ⟨5⟩ 0 "red") rec.historyDots
          = readSlice ⟨[["green"]]⟩ rec.historyDots :=
  results_copy_top_level_independent ⟨[⟨1, ⟨0⟩⟩]⟩ ⟨[["green"]]⟩ ⟨5⟩ 0 "red"
    (by decide)

/-- The history ring after a push never holds more than 10 entries. -/
theorem pushHistory_length_le (h : List String) (c : String) :
    (pushHistory h c).length ≤ 10 := by
  simp only [pushHistory]
  split <;> simp_all <;> omega

/-- Reading a history map after a write: the written URL reads the new
value, any other URL is untouched. -/
theorem lookupHist_setHist (h : List (String × List String))
    (u0 u : String) (v : List String) :
    lookupHist (setHist h u0 v) u = if u = u0 then v else lookupHist h u := by
  induction h with
  | nil =>
      simp only [setHist, lookupHist]
      by_cases hu : u0 = u
      · rw [if_pos hu, if_pos hu.symm]
      · rw [if_neg hu, if_neg (fun hh => hu hh.symm)]
  | cons p rest ih =>
      obtain ⟨k, w⟩ := p
      by_cases hk : k = u0
      · subst hk
        simp only [setHist, if_pos rfl, lookupHist]
        by_cases hu : k = u
        · simp [hu]
        · have hu' : ¬ u = k := fun hh => hu hh.symm
          simp [hu, hu']
      · rw [setHist, if_neg hk]
        simp only [lookupHist, ih]
        by_cases hu : k = u
        · have hu0 : ¬ u = u0 := fun hh => hk (hu.trans hh)
          simp [hu, hu0]
        · simp [hu]

/-- The aggregation loop preserves the history bound for every URL. -/
theorem processList_hist_inv (T cd now : Int) (rs : List SweepResult) :
    ∀ bs : BatchState, (∀ u, (lookupHist bs.history u).length ≤ 10) →
      ∀ u, (lookupHist (processList T cd now bs rs).1.history u).length ≤ 10 := by
  induction rs with
  | nil =>
      intro bs h u
      exact h u
  | cons r rest ih =>
      intro bs h u
      simp only [processList]
      refine ih _ ?_ u
      intro u'
      simp only [processOne]
      rw [lookupHist_setHist]
      split
      · exact pushHistory_length_le _ _
      · exact h u'

/-- C7: per-URL history never exceeds 10 entries after any sweep (the bound
is preserved by `runBatch` from any state satisfying it, and the initial
empty map satisfies it trivially); when a URL already holds 10 entries the
11th outcome evicts exactly the oldest entry, keeping the order of the rest;
below 10 entries the outcome is appended; and the published snapshot taken
by `append([]string(nil), his...)` lives in a fresh backing array, so later
element writes to any pre-existing buffer leave the snapshot unchanged. -/
theorem history_ring_bounded_fifo_copy (c : String) (h : List String)
    (T cdmin now : Int) (rs : List SweepResult) (bs : BatchState)
    (m : Mem) (xs : List String) (r : SliceRef)
    (hinv : ∀ u, (lookupHist bs.history u).length ≤ 10)
    (hlen : h.length = 10) (hr : r.id < m.heap.length) :
    pushHistory h c = h.drop 1 ++ [c]
    ∧ (∀ h2 : List String, h2.length < 10 → pushHistory h2 c = h2 ++ [c])
    ∧ (∀ u, (lookupHist (runBatch T cdmin now rs bs).1.history u).length ≤ 10)
    ∧ (∀ j v, readSlice (writeSlice (allocSlice m xs).1 r j v)
        (allocSlice m xs).2 = xs) := by
  refine ⟨?_, ?_, ?_, ?_⟩
  · simp only [pushHistory]
    have hlen1 : (h ++ [c]).length = 11 := by simp [hlen]
    rw [if_pos (by omega), hlen1]
    simp only [Nat.reduceSub]
    rw [List.drop_append_of_le_length (by omega)]
  · intro h2 hh2
    simp only [pushHistory]
    rw [if_neg (by simp; omega)]
  · intro u
    simp only [runBatch]
    split
    · exact hinv u
    · exact processList_hist_inv _ _ _ rs ⟨bs.states, bs.history, []⟩ hinv u
  · intro j v
    have hne : r.id ≠ m.heap.length := by omega
    simp only [allocSlice, writeSlice, readSlice]
    simp [List.getElem?_set_ne hne]

/-- Witness for C7 with a full ring of 10 entries and a one-entry heap. -/
theorem history_ring_bounded_fifo_copy_witness :
    pushHistory ["a", "b", "c", "d", "e", "f", "g", "h", "i", "j"] "k"
      = ["a", "b", "c", "d", "e", "f", "g", "h", "i", "j"].drop 1 ++ ["k"]
    ∧ (∀ h2 : List String, h2.length < 10 → pushHistory h2 "k" = h2 ++ ["k"])
    ∧ (∀ u, (lookupHist (runBatch 3 0 1 [⟨1, "svc", "u", 500, "red", false⟩]
        ⟨[], [], []⟩).1.history u).length ≤ 10)
    ∧ (∀ j v, readSlice
        (writeSlice (allocSlice ⟨[["green"]]⟩ ["red"]).1 ⟨0⟩ j v)
        (allocSlice ⟨[["green"]]⟩ ["red"]).2 = ["red"]) :=
  history_ring_bounded_fifo_copy "k"
    ["a", "b", "c", "d", "e", "f", "g", "h", "i", "j"] 3 0 1
    [⟨1, "svc", "u", 500, "red", false⟩] ⟨[], [], []⟩ ⟨[["green"]]⟩ ["red"] ⟨0⟩
    (by intro u; simp [lookupHist]) (by decide) (by decide)

/-- C8: a sweep over an empty task list is a no-op (state untouched, no
events), and `Service.runBatch` behaves identically when the threshold is
replaced by `max threshold 1` and the cooldown by `max cooldownMin 0` — the
defensive clamps at its head compute exactly these. -/
theorem runBatch_empty_noop_and_clamps (T cdmin now : Int)
    (rs : List SweepResult) (bs : BatchState) :
    runBatch T cdmin now [] bs = (bs, [])
    ∧ runBatch T cdmin now rs bs = runBatch (max T 1) (max cdmin 0) now rs bs := by
  constructor
  · rfl
  · have ht : (if (T : Int) ≤ 0 then (1 : Int) else T)
        = (if (max T 1 : Int) ≤ 0 then (1 : Int) else max T 1) := by
      by_cases hT : T ≤ 0
      · have h1 : max T 1 = 1 := max_eq_right (by omega)
        simp [hT, h1]
      · have h1 : max T 1 = T := max_eq_left (by omega)
        simp [hT, h1]
    have hcd : (if (cdmin * 60000000000 : Int) < 0 then (0 : Int)
          else cdmin * 60000000000)
        = (if (max cdmin 0 * 60000000000 : Int) < 0 then (0 : Int)
          else max cdmin 0 * 60000000000) := by
      by_cases hc : cdmin < 0
      · have h0 : cdmin * 60000000000 < 0 :=
          mul_neg_of_neg_of_pos hc (by norm_num)
        have hm : max cdmin 0 = 0 := max_eq_right (by omega)
        simp [h0, hm]
      · have h0 : (0 : Int) ≤ cdmin * 60000000000 :=
          mul_nonneg (by omega) (by norm_num)
        have hm : max cdmin 0 = cdmin := max_eq_left (by omega)
        simp [hm, not_lt.2 h0]
    simp only [runBatch]
    rw [ht, hcd]

/-- The possible outcomes of the probe attempt in `Service.checkURL`:
`url.ParseRequestURI` fails, `http.NewRequest` fails, `client.Do` returns a
transport error (including timeout), or a response arrives with a status
code after `ms` elapsed milliseconds. -/
inductive ProbeOutcome where
  | badURL
  | badRequest
  | transportError (ms : Int)
  | response (code : Int) (ms : Int)
deriving DecidableEq

/-- The fields of `model.MonitorResult` that `Service.checkURL` fills:
status code, elapsed milliseconds (`DurationInt`), status text, status
colour, success flag, and whether the network request was attempted
(`client.Do` reached). -/
structure CheckResult where
  statusCode : Int
  durationMs : Int
  statusText : String
  statusColor : String
  isSuccess : Bool
  networkAttempted : Bool
deriving DecidableEq

/-- `Service.checkURL` lines 249-302: malformed URL and request-construction
failure return a failure with duration `"0ms"` before any network attempt;
a transport error returns a failure with the elapsed time; a response with
status in `[200, 400)` is a success, marked slow (`"缓慢"`, yellow) when the
elapsed time exceeds 800 ms and normal (`"正常"`, green) otherwise; any other
status is a failure (`"故障"`, red). -/
def checkURL : ProbeOutcome → CheckResult
  | ProbeOutcome.badURL =>
      ⟨0, 0, "故障", "red", false, false⟩
  | ProbeOutcome.badRequest =>
      ⟨0, 0, "故障", "red", false, false⟩
  | ProbeOutcome.transportError ms =>
      ⟨0, ms, "故障", "red", false, true⟩
  | ProbeOutcome.response code ms =>
      if 200 ≤ code ∧ code < 400 then
        if ms > 800 then ⟨code, ms, "缓慢", "yellow", true, true⟩
        else ⟨code, ms, "正常", "green", true, true⟩
      else ⟨code, ms, "故障", "red", false, true⟩

/-- The sequence of results sent on the channel by one `Service.checkURL`
call, one `ch <- res` per return path of the function body. -/
def checkURLEmits : ProbeOutcome → List CheckResult
  | ProbeOutcome.badURL =>
      [⟨0, 0, "故障", "red", false, false⟩]
  | ProbeOutcome.badRequest =>
      [⟨0, 0, "故障", "red", false, false⟩]
  | ProbeOutcome.transportError ms =>
      [⟨0, ms, "故障", "red", false, true⟩]
  | ProbeOutcome.response code ms =>
      if 200 ≤ code ∧ code < 400 then
        if ms > 800 then [⟨code, ms, "缓慢", "yellow", true, true⟩]
        else [⟨code, ms, "正常", "green", true, true⟩]
      else [⟨code, ms, "故障", "red", false, true⟩]

/-- C4: probe classification.  A malformed URL or request-construction
failure is a failure with duration 0 and no network attempt; a transport
error or timeout is a failure; a status in `[200, 400)` is a success,
additionally flagged slow exactly when the elapsed time exceeds 800 ms
(still a success either way); any status at least 400 is a failure. -/
theorem checkURL_classification (code ms : Int) :
    checkURL ProbeOutcome.badURL
        = ⟨0, 0, "故障", "red", false, false⟩
    ∧ checkURL ProbeOutcome.badRequest
        = ⟨0, 0, "故障", "red", false, false⟩
    ∧ (checkURL (ProbeOutcome.transportError ms)).isSuccess = false
    ∧ (200 ≤ code → code < 400 →
        (checkURL (ProbeOutcome.response code ms)).isSuccess = true
        ∧ ((checkURL (ProbeOutcome.response code ms)).statusColor = "yellow"
            ↔ ms > 800))
    ∧ (400 ≤ code →
        (checkURL (ProbeOutcome.response code ms)).isSuccess = false) := by
  refine ⟨rfl, rfl, rfl, ?_, ?_⟩
  · intro h1 h2
    by_cases hms : ms > 800
    · simp [checkURL, h1, h2, hms]
    · simp [checkURL, h1, h2, hms]
  · intro h4
    have : ¬ (200 ≤ code ∧ code < 400) := by omega
    simp [checkURL, this]

/-- Witness for C4: a 250 response after 900 ms is a slow success; a 404
response is a failure. -/
theorem checkURL_classification_witness :
    ((checkURL (ProbeOutcome.response 250 900)).isSuccess = true
      ∧ ((checkURL (ProbeOutcome.response 250 900)).statusColor = "yellow"
          ↔ (900 : Int) > 800))
    ∧ (checkURL (ProbeOutcome.response 404 5)).isSuccess = false :=
  ⟨(checkURL_classification 250 900).2.2.2.1 (by norm_num) (by norm_num),
   (checkURL_classification 404 5).2.2.2.2 (by norm_num)⟩

/-- C9: every probe terminates in a classification — `Service.checkURL`
sends exactly one result on the channel for every possible outcome
(malformed URL, request failure, transport error, or any status code), that
result is the classification of `checkURL`, and its success flag is a
boolean; no outcome surfaces as an error to the sweep loop (the function
has no error path at all). -/
theorem checkURL_total_single_result (o : ProbeOutcome) :
    checkURLEmits o = [checkURL o]
    ∧ ((checkURL o).isSuccess = true ∨ (checkURL o).isSuccess = false) := by
  constructor
  · cases o with
    | badURL => rfl
    | badRequest => rfl
    | transportError ms => rfl
    | response code ms =>
        simp only [checkURLEmits, checkURL]
        by_cases h : 200 ≤ code ∧ code < 400
        · by_cases hms : ms > 800 <;> simp [h, hms]
        · simp [h]
  · cases hb : (checkURL o).isSuccess
    · exact Or.inr rfl
    · exact Or.inl rfl
